import Mathlib

set_option maxRecDepth 4000

/-!
Shallow embedding of the staves CLI (`staves/cli.py`) in Lean 4, together with
theorems settling the behavioural claims about its components.

Modelling conventions:
* POSIX paths are plain strings; `os.path.join` is modelled by `joinPath`,
  `os.path.relpath(p, "/")` by `relpathFromRoot`, `os.path.dirname` by
  `dirname`, and Python string `.split("/")` by `pySplitSlash`.
* `os.linesep` is the Linux value `"\n"`.
* External process invocation (`subprocess.run`) is modelled by a function
  parameter `exec : List String → RunResult` mapping the argument vector to
  the completed process result; side effects of a component are collected in
  an explicit trace.
* The filesystem written by the config writers is an association list from
  path to file content; writing in mode `w` prepends a fresh binding
  (shadowing any older one), writing in mode `a` prepends the old content
  extended with the new text. Directory creation (`os.makedirs`) carries no
  information in this model and is omitted from it.
* Exceptions (`StavesError`, `RootfsError`) are modelled as an `Option`
  error component next to the trace of effects performed before the raise.
-/

namespace Staves

/-- General tool error (class `StavesError` in the source). -/
structure StavesError where
  message : String
deriving Repr, DecidableEq

/-- Root-filesystem build error (class `RootfsError` in the source). -/
structure RootfsError where
  message : String
deriving Repr, DecidableEq

/-- Python truthiness of an optional string: `None` and `""` are falsy. -/
def truthy : Option String → Bool
  | none => false
  | some s => s != ""

/-- Model of `os.path.join(a, b)` for POSIX paths: an absolute second
component replaces the first, otherwise the two are glued with a single
separator unless the first is empty or already ends in one. -/
def joinPath (a b : String) : String :=
  if b.data.head? = some '/' then b
  else if a.data = [] ∨ a.data.getLast? = some '/' then a ++ b
  else a ++ "/" ++ b

/-- Embedding of `_create_dockerfile(annotations, *cmd)`.

The annotation mapping is an ordered association list (Python dicts preserve
insertion order).  The source line appending the label uses a plain (non-f)
string literal containing the text `LABEL {label_string}`, which is
reproduced verbatim here. -/
def create_dockerfile (annots : List (String × String)) (cmd : List String) : String :=
  let label_string := String.intercalate " "
    (annots.map (fun kv => "\"" ++ kv.1 ++ "\"=\"" ++ kv.2 ++ "\""))
  let command_string := String.intercalate ", " (cmd.map (fun c => "\"" ++ c ++ "\""))
  let dockerfile := ""
  let dockerfile :=
    if label_string ≠ "" then dockerfile ++ "LABEL {label_string}" ++ "\n" else dockerfile
  dockerfile ++ "    FROM scratch\n    COPY rootfs /\n    ENTRYPOINT [" ++
    command_string ++ "]\n    "

/-- Result of a completed external process (`subprocess.run` with captured
standard error). -/
structure RunResult where
  returncode : Int
  stderr : String
deriving Repr, DecidableEq

/-- Observable effect of the dependency installer: a console message
(`click.echo`, the flag records `err=True`) or an external invocation
(`subprocess.run` with the given argument vector). -/
inductive Event
  | echo (msg : String) (toStderr : Bool)
  | run (cmd : List String)
deriving Repr, DecidableEq

/-- The argument vectors of the external invocations in a trace, in order. -/
def runsOf (evs : List Event) : List (List String) :=
  evs.filterMap (fun e => match e with | Event.run c => some c | _ => none)

/-- The `emerge` argument vector installing build-time dependencies
(`emerge_bdeps_command` in `_create_rootfs`). -/
def emerge_bdeps_command (max_concurrent_jobs max_cpu_load : Nat)
    (packages : List String) : List String :=
  ["emerge", "--verbose", "--onlydeps", "--usepkg", "--with-bdeps=y", "--emptytree",
   "--jobs", toString max_concurrent_jobs, "--load-average", toString max_cpu_load] ++ packages

/-- The `emerge` argument vector installing run-time dependencies into the
rootfs (`emerge_rdeps_command` in `_create_rootfs`). -/
def emerge_rdeps_command (rootfs_path : String) (max_concurrent_jobs max_cpu_load : Nat)
    (packages : List String) : List String :=
  ["emerge", "--verbose", "--root=" ++ rootfs_path, "--root-deps=rdeps", "--oneshot",
   "--usepkg", "--jobs", toString max_concurrent_jobs, "--load-average", toString max_cpu_load]
    ++ packages

/-- Embedding of `_create_rootfs(rootfs_path, *packages, ...)`: the returned
pair is the trace of effects performed and the raised `RootfsError`, if any.
The mutation of `MAKEOPTS` in the process environment carries no information
in this model and is omitted. -/
def create_rootfs (exec : List String → RunResult) (rootfs_path : String)
    (packages : List String) (max_concurrent_jobs max_cpu_load : Nat) :
    List Event × Option RootfsError :=
  let bdeps_command := emerge_bdeps_command max_concurrent_jobs max_cpu_load packages
  let rdeps_command := emerge_rdeps_command rootfs_path max_concurrent_jobs max_cpu_load packages
  let bdeps := exec bdeps_command
  if bdeps.returncode ≠ 0 then
    ([Event.echo ("Creating rootfs at " ++ rootfs_path ++
        " containing the following packages:") false,
      Event.echo (String.intercalate ", " packages) false,
      Event.echo "Installing build-time dependencies to builder" false,
      Event.run bdeps_command,
      Event.echo bdeps.stderr true],
     some ⟨"Unable to install build-time dependencies."⟩)
  else
    let rdeps := exec rdeps_command
    if rdeps.returncode ≠ 0 then
      ([Event.echo ("Creating rootfs at " ++ rootfs_path ++
          " containing the following packages:") false,
        Event.echo (String.intercalate ", " packages) false,
        Event.echo "Installing build-time dependencies to builder" false,
        Event.run bdeps_command,
        Event.echo "Installing runtime dependencies to rootfs" false,
        Event.run rdeps_command,
        Event.echo rdeps.stderr true],
       some ⟨"Unable to install runtime dependencies."⟩)
    else
      ([Event.echo ("Creating rootfs at " ++ rootfs_path ++
          " containing the following packages:") false,
        Event.echo (String.intercalate ", " packages) false,
        Event.echo "Installing build-time dependencies to builder" false,
        Event.run bdeps_command,
        Event.echo "Installing runtime dependencies to rootfs" false,
        Event.run rdeps_command],
       none)

/-- Embedding of `_add_repository(name, sync_type, uri)`: returns the argument
vectors of the external invocations in order.  Both `subprocess.run` results
are discarded by the source (no returncode check), which the model mirrors by
binding and ignoring them.  In the branch where `uri and sync_type` is truthy
both options hold non-empty strings, which `Option.getD` recovers. -/
def add_repository (exec : List String → RunResult) (name : String)
    (sync_type uri : Option String) : List (List String) :=
  let first_command :=
    if truthy uri && truthy sync_type then
      ["eselect", "repository", "add", name, sync_type.getD "", uri.getD ""]
    else
      ["eselect", "repository", "enable", name]
  let _ := exec first_command
  let _ := exec ["emaint", "sync", "--repo", name]
  [first_command, ["emaint", "sync", "--repo", name]]

/-- The filesystem seen by the configuration writers: an association list
from path to file content.  The most recent binding for a path shadows all
older ones. -/
abbrev FS := List (String × String)

/-- Content of the file at a path, if present. -/
def FS.read (fs : FS) (p : String) : Option String :=
  (fs.find? (fun e => e.1 == p)).map (fun e => e.2)

/-- Writing a file in mode `w`: the new content replaces any prior one. -/
def FS.writeTrunc (fs : FS) (p c : String) : FS := (p, c) :: fs

/-- Writing a file in mode `a`: the new text is appended to the prior
content (an absent file counts as empty). -/
def FS.writeAppend (fs : FS) (p c : String) : FS :=
  (p, ((FS.read fs p).getD "") ++ c) :: fs

/-- Python `s.split("/")` on the character list of `s`: separators delimit
(possibly empty) pieces, and the empty string splits to one empty piece. -/
def splitSlash : List Char → List String
  | [] => [""]
  | c :: cs =>
    if c = '/' then "" :: splitSlash cs
    else
      match splitSlash cs with
      | [] => [String.mk [c]]
      | s :: rest => String.mk (c :: s.data) :: rest

/-- Python `package.split("/")`. -/
def pySplitSlash (s : String) : List String := splitSlash s.data

/-- The destination path chosen by `_write_env`: a named profile under
`/etc/portage/env`, or `/etc/portage/make.conf` when no name is given. -/
def envConfPath (name : Option String) : String :=
  if truthy name then
    joinPath (joinPath (joinPath "/etc" "portage") "env") (name.getD "")
  else
    joinPath (joinPath "/etc" "portage") "make.conf"

/-- The text written by `_write_env`: one `k="v"` line per mapping entry
(`os.linesep` is `"\n"`). -/
def renderEnvVars (env_vars : List (String × String)) : String :=
  String.join (env_vars.map (fun kv => kv.1 ++ "=\"" ++ kv.2 ++ "\"" ++ "\n"))

/-- Embedding of `_write_env(env_vars, name)`: the destination file is opened
in mode `a` and the rendered lines are appended. -/
def write_env (fs : FS) (env_vars : List (String × String)) (name : Option String) : FS :=
  FS.writeAppend fs (envConfPath name) (renderEnvVars env_vars)

/-- The path of a per-package configuration file: the category directory
under `/etc/portage` joined with the `/`-split segments of the package
identifier (`os.path.join('/etc', 'portage', category, *package.split('/'))`). -/
def pkgConfigPath (category package : String) : String :=
  (pySplitSlash package).foldl joinPath (joinPath (joinPath "/etc" "portage") category)

/-- Embedding of `_write_package_config(package, env, keywords, use)`: one
mode-`w` write per truthy category list (Python `None` and `[]` are both
falsy and are modelled as `[]`). -/
def write_package_config (fs : FS) (package : String)
    (env keywords use : List String) : FS :=
  let fs1 :=
    if env ≠ [] then
      FS.writeTrunc fs (pkgConfigPath "package.env" package)
        (package ++ " " ++ String.intercalate " " env ++ "\n")
    else fs
  let fs2 :=
    if keywords ≠ [] then
      FS.writeTrunc fs1 (pkgConfigPath "package.accept_keywords" package)
        (package ++ " " ++ String.intercalate " " keywords ++ "\n")
    else fs1
  let fs3 :=
    if use ≠ [] then
      FS.writeTrunc fs2 (pkgConfigPath "package.use" package)
        (package ++ " " ++ String.intercalate " " use ++ "\n")
    else fs2
  fs3

/-- Filesystem mutation performed by the copier components. -/
inductive CopyAction
  | mkdirs (p : String)
  | symlink (target dest : String)
  | copytree (src dest : String)
  | copyfile (src dest : String)
deriving Repr, DecidableEq

/-- The destination written by a copy operation, if any. -/
def destOf : CopyAction → Option String
  | CopyAction.mkdirs _ => none
  | CopyAction.symlink _ d => some d
  | CopyAction.copytree _ d => some d
  | CopyAction.copyfile _ d => some d

/-- Embedding of `_copy_stdlib(rootfs_path, copy_libstdcpp)`.  The recursive
directory walk `os.walk(search_path)` is modelled as the list of
(directory path, file names) pairs in walk order; the loop body updates the
two remembered paths exactly as the source does, so a later match overwrites
an earlier one.  Returns the copies performed before a raise together with
the raised `StavesError`, if any. -/
def copy_stdlib (walk : List (String × List String)) (rootfs_path : String)
    (copy_libstdcpp : Bool) : List CopyAction × Option StavesError :=
  let libgcc := "libgcc_s.so.1"
  let libstdcpp := "libstdc++.so.6"
  let search_path := joinPath (joinPath "/usr" "lib") "gcc"
  let found := walk.foldl
    (fun (acc : Option String × Option String) e =>
      (if e.2.contains libgcc then some (joinPath e.1 libgcc) else acc.1,
       if e.2.contains libstdcpp then some (joinPath e.1 libstdcpp) else acc.2))
    (none, none)
  match found.1 with
  | none => ([], some ⟨"Unable to find " ++ libgcc ++ " in " ++ search_path⟩)
  | some libgcc_path =>
    if copy_libstdcpp then
      match found.2 with
      | none =>
        ([CopyAction.copyfile libgcc_path (joinPath (joinPath rootfs_path "usr") "lib")],
         some ⟨"Unable to find " ++ libstdcpp ++ " in " ++ search_path⟩)
      | some libstdcpp_path =>
        ([CopyAction.copyfile libgcc_path (joinPath (joinPath rootfs_path "usr") "lib"),
          CopyAction.copyfile libstdcpp_path (joinPath (joinPath rootfs_path "usr") "lib")],
         none)
    else
      ([CopyAction.copyfile libgcc_path (joinPath (joinPath rootfs_path "usr") "lib")], none)

/-- Source type of a host path as classified by the if/elif chain of
`_copy_to_rootfs`: `os.path.islink` is checked first, so `link` covers every
symbolic link (even one pointing at a directory), `dir` and `file` cover
non-link directories and regular files, and `other` is anything else
(sockets, devices, ...). -/
inductive SrcType
  | link (target : String)
  | dir
  | file
  | other
deriving Repr, DecidableEq

/-- Model of `os.path.relpath(p, "/")` for a normalized absolute path: the
leading separators are removed. -/
def relpathFromRoot (p : String) : String :=
  String.mk (p.data.dropWhile (fun c => c = '/'))

/-- Model of `os.path.dirname`: everything before the last separator, with
trailing separators stripped unless the head is all separators. -/
def dirname (p : String) : String :=
  let r1 := p.data.reverse.dropWhile (fun c => c ≠ '/')
  if r1.all (fun c => c = '/') then String.mk r1.reverse
  else String.mk ((r1.dropWhile (fun c => c = '/')).reverse)

/-- Loop body of `_copy_to_rootfs` over the glob matches: each iteration
creates the destination parent directories, then recreates a symbolic link
with the target string of the source link, copies the whole subtree, or copies the
file; any other source type raises a `StavesError` naming the `path`
argument (the glob pattern). -/
def copy_to_rootfs_loop (typeOf : String → SrcType) (rootfs path : String) :
    List String → List CopyAction × Option StavesError
  | [] => ([], none)
  | host_path :: rest =>
    let rootfs_path := joinPath rootfs (relpathFromRoot host_path)
    match typeOf host_path with
    | SrcType.link target =>
      let r := copy_to_rootfs_loop typeOf rootfs path rest
      (CopyAction.mkdirs (dirname rootfs_path) ::
        CopyAction.symlink target rootfs_path :: r.1, r.2)
    | SrcType.dir =>
      let r := copy_to_rootfs_loop typeOf rootfs path rest
      (CopyAction.mkdirs (dirname rootfs_path) ::
        CopyAction.copytree host_path rootfs_path :: r.1, r.2)
    | SrcType.file =>
      let r := copy_to_rootfs_loop typeOf rootfs path rest
      (CopyAction.mkdirs (dirname rootfs_path) ::
        CopyAction.copyfile host_path rootfs_path :: r.1, r.2)
    | SrcType.other =>
      ([CopyAction.mkdirs (dirname rootfs_path)],
       some ⟨"Copying " ++ path ++ " to rootfs is not supported."⟩)

/-- Embedding of `_copy_to_rootfs(rootfs, path)`: `glob.iglob(path)` is
modelled by the list of matched host paths in iteration order, and the
classification of each host path by a function parameter. -/
def copy_to_rootfs (typeOf : String → SrcType) (rootfs path : String)
    (globs : List String) : List CopyAction × Option StavesError :=
  copy_to_rootfs_loop typeOf rootfs path globs

end Staves

namespace Staves

/-- Reading a freshly truncate-written file yields exactly the new content. -/
lemma FS.read_writeTrunc_same (fs : FS) (p c : String) :
    FS.read (FS.writeTrunc fs p c) p = some c := by
  unfold FS.read FS.writeTrunc
  rw [List.find?_cons_of_pos _ (by simp)]
  rfl

/-- A truncate-write at one path leaves reads at a different path unchanged. -/
lemma FS.read_writeTrunc_ne (fs : FS) (p c q : String) (h : q ≠ p) :
    FS.read (FS.writeTrunc fs p c) q = FS.read fs q := by
  unfold FS.read FS.writeTrunc
  rw [List.find?_cons_of_neg _ (by simp [Ne.symm h])]

/-- A conditional truncate-write at one path leaves reads at a different path
unchanged. -/
lemma FS.read_ite_writeTrunc_ne (P : Prop) [Decidable P] (fs : FS) (p c q : String)
    (h : q ≠ p) :
    FS.read (if P then FS.writeTrunc fs p c else fs) q = FS.read fs q := by
  split
  · exact FS.read_writeTrunc_ne fs p c q h
  · rfl

/-- Reading after an append-write yields the prior content extended by the
new text. -/
lemma FS.read_writeAppend_same (fs : FS) (p c : String) :
    FS.read (FS.writeAppend fs p c) p = some (((FS.read fs p).getD "") ++ c) :=
  FS.read_writeTrunc_same fs p _

/-- `splitSlash` never returns the empty list. -/
lemma splitSlash_ne_nil (l : List Char) : splitSlash l ≠ [] := by
  cases l with
  | nil => simp [splitSlash]
  | cons c cs =>
    rw [splitSlash]
    by_cases hc : c = '/'
    · simp [hc]
    · rw [if_neg hc]
      cases h : splitSlash cs <;> simp

/-- No piece produced by `splitSlash` contains the separator. -/
lemma splitSlash_no_slash (l : List Char) : ∀ s ∈ splitSlash l, '/' ∉ s.data := by
  induction l with
  | nil =>
    intro s hs
    simp [splitSlash] at hs
    simp [hs]
  | cons c cs ih =>
    intro s hs
    rw [splitSlash] at hs
    by_cases hc : c = '/'
    · rw [if_pos hc] at hs
      rcases List.mem_cons.mp hs with h1 | h2
      · simp [h1]
      · exact ih s h2
    · rw [if_neg hc] at hs
      cases h : splitSlash cs with
      | nil => exact absurd h (splitSlash_ne_nil cs)
      | cons s0 rest =>
        rw [h] at hs
        rcases List.mem_cons.mp hs with h1 | h2
        · subst h1
          intro hmem
          rcases List.mem_cons.mp hmem with h3 | h3
          · exact hc h3.symm
          · exact ih s0 (by rw [h]; exact List.mem_cons_self s0 rest) h3
        · exact ih s (by rw [h]; exact List.mem_cons_of_mem s0 h2)

/-- Joining a separator-free component onto a base path extends the base on
the right. -/
lemma joinPath_data_prefix (b s : String) (h : '/' ∉ s.data) :
    ∃ u, (joinPath b s).data = b.data ++ u := by
  have hcond : ¬(s.data.head? = some '/') := by
    intro hh
    cases hd : s.data with
    | nil => rw [hd] at hh; simp at hh
    | cons x xs =>
      rw [hd] at hh
      simp at hh
      exact h (by rw [hd, hh]; exact List.mem_cons_self _ _)
  unfold joinPath
  rw [if_neg hcond]
  split
  · exact ⟨s.data, String.data_append b s⟩
  · exact ⟨'/' :: s.data, by rw [String.data_append, String.data_append, List.append_assoc]; rfl⟩

/-- Folding separator-free components onto a base path extends the base on
the right. -/
lemma foldl_joinPath_data_prefix (segs : List String) (b : String)
    (h : ∀ s ∈ segs, '/' ∉ s.data) :
    ∃ u, (segs.foldl joinPath b).data = b.data ++ u := by
  induction segs generalizing b with
  | nil => exact ⟨[], by simp⟩
  | cons s segs ih =>
    obtain ⟨u1, hu1⟩ := joinPath_data_prefix b s (h s (List.mem_cons_self s segs))
    obtain ⟨u2, hu2⟩ := ih (joinPath b s) (fun t ht => h t (List.mem_cons_of_mem s ht))
    exact ⟨u1 ++ u2, by rw [List.foldl_cons, hu2, hu1, List.append_assoc]⟩

/-- Two per-package config paths differ whenever their category roots differ
on a common initial segment. -/
lemma pkgConfigPath_ne_of_take (c1 c2 package : String) (n : Nat)
    (h1 : n ≤ (joinPath (joinPath "/etc" "portage") c1).data.length)
    (h2 : n ≤ (joinPath (joinPath "/etc" "portage") c2).data.length)
    (hne : (joinPath (joinPath "/etc" "portage") c1).data.take n ≠
      (joinPath (joinPath "/etc" "portage") c2).data.take n) :
    pkgConfigPath c1 package ≠ pkgConfigPath c2 package := by
  intro heq
  obtain ⟨u1, hu1⟩ := foldl_joinPath_data_prefix (pySplitSlash package)
    (joinPath (joinPath "/etc" "portage") c1)
    (fun s hs => splitSlash_no_slash package.data s hs)
  obtain ⟨u2, hu2⟩ := foldl_joinPath_data_prefix (pySplitSlash package)
    (joinPath (joinPath "/etc" "portage") c2)
    (fun s hs => splitSlash_no_slash package.data s hs)
  apply hne
  have hdata := congrArg String.data heq
  unfold pkgConfigPath at hdata
  rw [hu1, hu2] at hdata
  have htake := congrArg (List.take n) hdata
  rwa [List.take_append_of_le_length h1, List.take_append_of_le_length h2] at htake

/-- The `package.env` and `package.use` trees never share a file. -/
lemma pkgConfigPath_env_ne_use (package : String) :
    pkgConfigPath "package.env" package ≠ pkgConfigPath "package.use" package :=
  pkgConfigPath_ne_of_take _ _ package 24 (by decide) (by decide) (by decide)

/-- The `package.env` and `package.accept_keywords` trees never share a file. -/
lemma pkgConfigPath_env_ne_accept (package : String) :
    pkgConfigPath "package.env" package ≠ pkgConfigPath "package.accept_keywords" package :=
  pkgConfigPath_ne_of_take _ _ package 24 (by decide) (by decide) (by decide)

/-- The `package.accept_keywords` and `package.use` trees never share a file. -/
lemma pkgConfigPath_accept_ne_use (package : String) :
    pkgConfigPath "package.accept_keywords" package ≠ pkgConfigPath "package.use" package :=
  pkgConfigPath_ne_of_take _ _ package 24 (by decide) (by decide) (by decide)

/-- After `_write_package_config` with a non-empty `env` list, the
`package.env` file holds exactly the rendered env line. -/
lemma read_write_package_config_env (fs : FS) (package : String)
    (env keywords use : List String) (he : env ≠ []) :
    FS.read (write_package_config fs package env keywords use)
      (pkgConfigPath "package.env" package) =
      some (package ++ " " ++ String.intercalate " " env ++ "\n") := by
  simp only [write_package_config]
  rw [FS.read_ite_writeTrunc_ne _ _ _ _ _ (pkgConfigPath_env_ne_use package)]
  rw [FS.read_ite_writeTrunc_ne _ _ _ _ _ (pkgConfigPath_env_ne_accept package)]
  rw [if_pos he]
  exact FS.read_writeTrunc_same _ _ _

/-- After `_write_package_config` with a non-empty `keywords` list, the
`package.accept_keywords` file holds exactly the rendered keywords line. -/
lemma read_write_package_config_keywords (fs : FS) (package : String)
    (env keywords use : List String) (hk : keywords ≠ []) :
    FS.read (write_package_config fs package env keywords use)
      (pkgConfigPath "package.accept_keywords" package) =
      some (package ++ " " ++ String.intercalate " " keywords ++ "\n") := by
  simp only [write_package_config]
  rw [FS.read_ite_writeTrunc_ne _ _ _ _ _ (pkgConfigPath_accept_ne_use package)]
  rw [if_pos hk]
  exact FS.read_writeTrunc_same _ _ _

/-- After `_write_package_config` with a non-empty `use` list, the
`package.use` file holds exactly the rendered use line. -/
lemma read_write_package_config_use (fs : FS) (package : String)
    (env keywords use : List String) (hu : use ≠ []) :
    FS.read (write_package_config fs package env keywords use)
      (pkgConfigPath "package.use" package) =
      some (package ++ " " ++ String.intercalate " " use ++ "\n") := by
  simp only [write_package_config]
  rw [if_pos hu]
  exact FS.read_writeTrunc_same _ _ _

/-- Claim C1: for the annotation mapping `[("a", "b")]` and command `["run"]`,
the generated build-instruction document was claimed to contain a label
instruction including the pair `"a"="b"`.  The code instead emits the literal
text `LABEL {label_string}` (the f-string prefix is missing in the source), so
the quoted pair never appears anywhere in the document, while the entrypoint
instruction does contain the single quoted element `"run"` as claimed. -/
theorem claim_C1_dockerfile_label_literal :
    create_dockerfile [("a", "b")] ["run"] =
      "LABEL {label_string}\n    FROM scratch\n    COPY rootfs /\n    ENTRYPOINT [\"run\"]\n    " ∧
    ¬ ("\"a\"=\"b\"".data <:+: (create_dockerfile [("a", "b")] ["run"]).data) ∧
    ("ENTRYPOINT [\"run\"]".data <:+: (create_dockerfile [("a", "b")] ["run"]).data) :=
  ⟨rfl, by decide, by decide⟩

/-- Claim C2: for every rootfs path and package list, if the build-time
dependency installation exits non-zero, then the run-time dependency
installation is never invoked (the only external invocation in the trace is
the build-time one), a `RootfsError` is raised, and the last effect before
the raise is echoing the captured standard-error stream. -/
theorem claim_C2_bdeps_failure_aborts (exec : List String → RunResult)
    (rootfs_path : String) (packages : List String) (jobs load : Nat)
    (h : (exec (emerge_bdeps_command jobs load packages)).returncode ≠ 0) :
    (create_rootfs exec rootfs_path packages jobs load).2 =
      some ⟨"Unable to install build-time dependencies."⟩ ∧
    runsOf (create_rootfs exec rootfs_path packages jobs load).1 =
      [emerge_bdeps_command jobs load packages] ∧
    (create_rootfs exec rootfs_path packages jobs load).1.getLast? =
      some (Event.echo (exec (emerge_bdeps_command jobs load packages)).stderr true) := by
  unfold create_rootfs
  rw [if_pos h]
  refine ⟨rfl, ?_, rfl⟩
  simp [runsOf]

/-- Concrete instance of claim C2: a failing build-time step with exit code 1
and diagnostic text `boom` aborts before any run-time invocation. -/
theorem claim_C2_bdeps_failure_aborts_witness :
    ((fun _ => RunResult.mk 1 "boom") (emerge_bdeps_command 1 1 ["app-shells/bash"])).returncode ≠ 0 ∧
    (create_rootfs (fun _ => RunResult.mk 1 "boom") "/tmp/rootfs" ["app-shells/bash"] 1 1).2 =
      some ⟨"Unable to install build-time dependencies."⟩ :=
  ⟨by decide,
   (claim_C2_bdeps_failure_aborts (fun _ => RunResult.mk 1 "boom") "/tmp/rootfs"
     ["app-shells/bash"] 1 1 (by decide)).1⟩

/-- Claim C7: the output of the repository manager never depends on the exit
status of its external calls (no returncode check, no exception), and the
repository-limited sync invocation always follows the add/enable invocation:
the trace is exactly the add-or-enable command followed by the sync command. -/
theorem claim_C7_repository_best_effort (exec1 exec2 : List String → RunResult)
    (name : String) (sync_type uri : Option String) :
    add_repository exec1 name sync_type uri = add_repository exec2 name sync_type uri ∧
    ∃ c, add_repository exec1 name sync_type uri = [c, ["emaint", "sync", "--repo", name]] ∧
      (c = ["eselect", "repository", "add", name, sync_type.getD "", uri.getD ""] ∨
       c = ["eselect", "repository", "enable", name]) := by
  refine ⟨rfl, ?_⟩
  unfold add_repository
  by_cases h : (truthy uri && truthy sync_type) = true
  · rw [if_pos h]
    exact ⟨_, rfl, Or.inl rfl⟩
  · rw [if_neg h]
    exact ⟨_, rfl, Or.inr rfl⟩

/-- Claim C3: for every package identifier and every non-empty category list
among `env`, `keywords`, `use`, the package config writer leaves a file at
the category root joined with the `/`-split segments of the identifier whose
content is the identifier, a space, the space-joined values and a newline;
and a second write for the same package and category replaces the prior
content entirely. -/
theorem claim_C3_package_config_content_and_overwrite (fs : FS) (package : String)
    (env keywords use env2 keywords2 use2 : List String) :
    (env ≠ [] →
      FS.read (write_package_config fs package env keywords use)
        (pkgConfigPath "package.env" package) =
        some (package ++ " " ++ String.intercalate " " env ++ "\n")) ∧
    (keywords ≠ [] →
      FS.read (write_package_config fs package env keywords use)
        (pkgConfigPath "package.accept_keywords" package) =
        some (package ++ " " ++ String.intercalate " " keywords ++ "\n")) ∧
    (use ≠ [] →
      FS.read (write_package_config fs package env keywords use)
        (pkgConfigPath "package.use" package) =
        some (package ++ " " ++ String.intercalate " " use ++ "\n")) ∧
    (env2 ≠ [] →
      FS.read (write_package_config (write_package_config fs package env keywords use)
          package env2 keywords2 use2)
        (pkgConfigPath "package.env" package) =
        some (package ++ " " ++ String.intercalate " " env2 ++ "\n")) ∧
    (keywords2 ≠ [] →
      FS.read (write_package_config (write_package_config fs package env keywords use)
          package env2 keywords2 use2)
        (pkgConfigPath "package.accept_keywords" package) =
        some (package ++ " " ++ String.intercalate " " keywords2 ++ "\n")) ∧
    (use2 ≠ [] →
      FS.read (write_package_config (write_package_config fs package env keywords use)
          package env2 keywords2 use2)
        (pkgConfigPath "package.use" package) =
        some (package ++ " " ++ String.intercalate " " use2 ++ "\n")) :=
  ⟨read_write_package_config_env fs package env keywords use,
   read_write_package_config_keywords fs package env keywords use,
   read_write_package_config_use fs package env keywords use,
   read_write_package_config_env _ package env2 keywords2 use2,
   read_write_package_config_keywords _ package env2 keywords2 use2,
   read_write_package_config_use _ package env2 keywords2 use2⟩

/-- Concrete instance of claim C3: writing env config for `app-editors/vim`
and then writing it again leaves only the second content. -/
theorem claim_C3_package_config_content_and_overwrite_witness :
    FS.read (write_package_config [] "app-editors/vim" ["clang.conf"] [] [])
      (pkgConfigPath "package.env" "app-editors/vim") =
      some ("app-editors/vim" ++ " " ++ String.intercalate " " ["clang.conf"] ++ "\n") ∧
    FS.read (write_package_config (write_package_config [] "app-editors/vim"
        ["clang.conf"] [] []) "app-editors/vim" ["gcc.conf"] [] [])
      (pkgConfigPath "package.env" "app-editors/vim") =
      some ("app-editors/vim" ++ " " ++ String.intercalate " " ["gcc.conf"] ++ "\n") :=
  ⟨(claim_C3_package_config_content_and_overwrite [] "app-editors/vim"
      ["clang.conf"] [] [] ["gcc.conf"] [] []).1 (by decide),
   (claim_C3_package_config_content_and_overwrite [] "app-editors/vim"
      ["clang.conf"] [] [] ["gcc.conf"] [] []).2.2.2.1 (by decide)⟩

/-- Claim C9: `_write_env` opens its destination in append mode, so two
invocations on the same destination leave a file holding the prior content
followed by the lines of the first write and then those of the second. -/
theorem claim_C9_write_env_appends (fs : FS) (vars1 vars2 : List (String × String))
    (name : Option String) :
    FS.read (write_env (write_env fs vars1 name) vars2 name) (envConfPath name) =
      some ((((FS.read fs (envConfPath name)).getD "") ++ renderEnvVars vars1) ++
        renderEnvVars vars2) := by
  unfold write_env
  rw [FS.read_writeAppend_same]
  rw [FS.read_writeAppend_same]
  rfl

/-- The simultaneous fold of `_copy_stdlib` over the walk equals the two
independent folds for the two remembered library paths. -/
lemma copy_stdlib_fold_split (walk : List (String × List String)) (a b : Option String) :
    walk.foldl
      (fun (acc : Option String × Option String) e =>
        (if e.2.contains "libgcc_s.so.1" then some (joinPath e.1 "libgcc_s.so.1") else acc.1,
         if e.2.contains "libstdc++.so.6" then some (joinPath e.1 "libstdc++.so.6") else acc.2))
      (a, b) =
    (walk.foldl
      (fun acc e =>
        if e.2.contains "libgcc_s.so.1" then some (joinPath e.1 "libgcc_s.so.1") else acc) a,
     walk.foldl
      (fun acc e =>
        if e.2.contains "libstdc++.so.6" then some (joinPath e.1 "libstdc++.so.6") else acc) b) := by
  induction walk generalizing a b with
  | nil => rfl
  | cons e es ih =>
    simp only [List.foldl_cons]
    exact ih _ _

/-- A fold that overwrites its accumulator at every directory whose file list
contains the library resolves to the last matching directory in walk order. -/
lemma foldl_lib_lastMatch (lib : String) (walk : List (String × List String))
    (init : Option String) :
    walk.foldl (fun acc e => if e.2.contains lib then some (joinPath e.1 lib) else acc) init =
      ((walk.filter (fun e => e.2.contains lib)).getLast?).elim init
        (fun e => some (joinPath e.1 lib)) := by
  induction walk generalizing init with
  | nil => rfl
  | cons e es ih =>
    simp only [List.foldl_cons]
    rw [ih]
    by_cases h : e.2.contains lib = true
    · rw [if_pos h]
      rw [show (e :: es).filter (fun e => e.2.contains lib) =
        e :: es.filter (fun e => e.2.contains lib) by rw [List.filter_cons, if_pos h]]
      cases hfe : es.filter (fun e => e.2.contains lib) with
      | nil => simp
      | cons x xs =>
        rw [List.getLast?_cons_cons, List.getLast?_eq_getLast (x :: xs) (by simp)]
        rfl
    · rw [if_neg h]
      rw [show (e :: es).filter (fun e => e.2.contains lib) =
        es.filter (fun e => e.2.contains lib) by rw [List.filter_cons, if_neg h]]

/-- Claim C5: when the walk of the toolchain tree contains matches for the
sought libraries, the paths used for the copies come from the last matching
directories in walk order (each later match overwrites the remembered
earlier one). -/
theorem claim_C5_last_walk_match_wins (walk : List (String × List String))
    (rootfs_path d d2 : String) (fl fl2 : List String)
    (hg : (walk.filter (fun e => e.2.contains "libgcc_s.so.1")).getLast? = some (d, fl))
    (hs : (walk.filter (fun e => e.2.contains "libstdc++.so.6")).getLast? = some (d2, fl2)) :
    copy_stdlib walk rootfs_path true =
      ([CopyAction.copyfile (joinPath d "libgcc_s.so.1")
          (joinPath (joinPath rootfs_path "usr") "lib"),
        CopyAction.copyfile (joinPath d2 "libstdc++.so.6")
          (joinPath (joinPath rootfs_path "usr") "lib")], none) := by
  simp only [copy_stdlib]
  rw [copy_stdlib_fold_split, foldl_lib_lastMatch, foldl_lib_lastMatch, hg, hs]
  rfl

/-- Concrete instance of claim C5: with two directories both holding both
libraries, the copies are taken from the second (the later) directory. -/
theorem claim_C5_last_walk_match_wins_witness :
    (([("/usr/lib/gcc/a", ["libgcc_s.so.1", "libstdc++.so.6"]),
        ("/usr/lib/gcc/b", ["libgcc_s.so.1", "libstdc++.so.6"])] :
        List (String × List String)).filter
        (fun e => e.2.contains "libgcc_s.so.1")).getLast? =
      some ("/usr/lib/gcc/b", ["libgcc_s.so.1", "libstdc++.so.6"]) ∧
    copy_stdlib
      [("/usr/lib/gcc/a", ["libgcc_s.so.1", "libstdc++.so.6"]),
       ("/usr/lib/gcc/b", ["libgcc_s.so.1", "libstdc++.so.6"])] "/tmp/rootfs" true =
      ([CopyAction.copyfile (joinPath "/usr/lib/gcc/b" "libgcc_s.so.1")
          (joinPath (joinPath "/tmp/rootfs" "usr") "lib"),
        CopyAction.copyfile (joinPath "/usr/lib/gcc/b" "libstdc++.so.6")
          (joinPath (joinPath "/tmp/rootfs" "usr") "lib")], none) :=
  ⟨by decide,
   claim_C5_last_walk_match_wins _ "/tmp/rootfs" "/usr/lib/gcc/b" "/usr/lib/gcc/b"
     ["libgcc_s.so.1", "libstdc++.so.6"] ["libgcc_s.so.1", "libstdc++.so.6"]
     (by decide) (by decide)⟩

/-- Claim C8: when the C++ standard library is requested but absent from the
walk while the C runtime support library is present, `_copy_stdlib` raises
the fatal error only after having already copied `libgcc_s.so.1` into the
staging root, so the failed invocation leaves the staging root modified. -/
theorem claim_C8_stdlib_failure_after_libgcc_copy (walk : List (String × List String))
    (rootfs_path d : String) (fl : List String)
    (hg : (walk.filter (fun e => e.2.contains "libgcc_s.so.1")).getLast? = some (d, fl))
    (hs : ∀ e ∈ walk, e.2.contains "libstdc++.so.6" = false) :
    copy_stdlib walk rootfs_path true =
      ([CopyAction.copyfile (joinPath d "libgcc_s.so.1")
          (joinPath (joinPath rootfs_path "usr") "lib")],
       some ⟨"Unable to find libstdc++.so.6 in /usr/lib/gcc"⟩) := by
  have hnil : walk.filter (fun e => e.2.contains "libstdc++.so.6") = [] :=
    List.filter_eq_nil_iff.mpr (fun e he => by simpa using hs e he)
  simp only [copy_stdlib]
  rw [copy_stdlib_fold_split, foldl_lib_lastMatch, foldl_lib_lastMatch, hg, hnil]
  rfl

/-- Concrete instance of claim C8: a walk holding only `libgcc_s.so.1` with
the C++ standard library requested copies the C runtime library and then
fails. -/
theorem claim_C8_stdlib_failure_after_libgcc_copy_witness :
    (([("/usr/lib/gcc/a", ["libgcc_s.so.1"])] : List (String × List String)).filter
        (fun e => e.2.contains "libgcc_s.so.1")).getLast? =
      some ("/usr/lib/gcc/a", ["libgcc_s.so.1"]) ∧
    copy_stdlib [("/usr/lib/gcc/a", ["libgcc_s.so.1"])] "/tmp/rootfs" true =
      ([CopyAction.copyfile (joinPath "/usr/lib/gcc/a" "libgcc_s.so.1")
          (joinPath (joinPath "/tmp/rootfs" "usr") "lib")],
       some ⟨"Unable to find libstdc++.so.6 in /usr/lib/gcc"⟩) :=
  ⟨by decide,
   claim_C8_stdlib_failure_after_libgcc_copy _ "/tmp/rootfs" "/usr/lib/gcc/a"
     ["libgcc_s.so.1"] (by decide) (by decide)⟩

/-- In an error-free run of the copy loop, every symbolic-link match
contributes a destination symlink carrying the target string of the source link
verbatim. -/
lemma loop_symlink_mem (typeOf : String → SrcType) (rootfs path : String)
    (globs : List String) (host_path target : String)
    (hmem : host_path ∈ globs) (htype : typeOf host_path = SrcType.link target)
    (hok : (copy_to_rootfs_loop typeOf rootfs path globs).2 = none) :
    CopyAction.symlink target (joinPath rootfs (relpathFromRoot host_path)) ∈
      (copy_to_rootfs_loop typeOf rootfs path globs).1 := by
  induction globs with
  | nil => cases hmem
  | cons m rest ih =>
    cases hty : typeOf m with
    | link t =>
      simp only [copy_to_rootfs_loop, hty] at hok ⊢
      rcases List.mem_cons.mp hmem with heq | hmem'
      · subst heq
        rw [hty] at htype
        injection htype with h
        subst h
        exact List.mem_cons_of_mem _ (List.mem_cons_self _ _)
      · exact List.mem_cons_of_mem _ (List.mem_cons_of_mem _ (ih hmem' hok))
    | dir =>
      simp only [copy_to_rootfs_loop, hty] at hok ⊢
      rcases List.mem_cons.mp hmem with heq | hmem'
      · subst heq; rw [hty] at htype; cases htype
      · exact List.mem_cons_of_mem _ (List.mem_cons_of_mem _ (ih hmem' hok))
    | file =>
      simp only [copy_to_rootfs_loop, hty] at hok ⊢
      rcases List.mem_cons.mp hmem with heq | hmem'
      · subst heq; rw [hty] at htype; cases htype
      · exact List.mem_cons_of_mem _ (List.mem_cons_of_mem _ (ih hmem' hok))
    | other =>
      simp only [copy_to_rootfs_loop, hty] at hok
      exact Option.noConfusion hok

/-- Whenever some match is of unsupported type, the copy loop raises the
error naming the glob pattern, whatever else the match list holds. -/
lemma loop_unsupported_pattern_error (typeOf : String → SrcType) (rootfs path : String)
    (globs : List String) (host_path : String)
    (hmem : host_path ∈ globs) (htype : typeOf host_path = SrcType.other) :
    ∃ acts, copy_to_rootfs_loop typeOf rootfs path globs =
      (acts, some (StavesError.mk ("Copying " ++ path ++ " to rootfs is not supported."))) := by
  induction globs with
  | nil => cases hmem
  | cons m rest ih =>
    cases hty : typeOf m with
    | link t =>
      rcases List.mem_cons.mp hmem with heq | hmem'
      · subst heq; rw [hty] at htype; cases htype
      · obtain ⟨acts, hacts⟩ := ih hmem'
        refine ⟨CopyAction.mkdirs (dirname (joinPath rootfs (relpathFromRoot m))) ::
          CopyAction.symlink t (joinPath rootfs (relpathFromRoot m)) :: acts, ?_⟩
        simp only [copy_to_rootfs_loop, hty, hacts]
    | dir =>
      rcases List.mem_cons.mp hmem with heq | hmem'
      · subst heq; rw [hty] at htype; cases htype
      · obtain ⟨acts, hacts⟩ := ih hmem'
        refine ⟨CopyAction.mkdirs (dirname (joinPath rootfs (relpathFromRoot m))) ::
          CopyAction.copytree m (joinPath rootfs (relpathFromRoot m)) :: acts, ?_⟩
        simp only [copy_to_rootfs_loop, hty, hacts]
    | file =>
      rcases List.mem_cons.mp hmem with heq | hmem'
      · subst heq; rw [hty] at htype; cases htype
      · obtain ⟨acts, hacts⟩ := ih hmem'
        refine ⟨CopyAction.mkdirs (dirname (joinPath rootfs (relpathFromRoot m))) ::
          CopyAction.copyfile m (joinPath rootfs (relpathFromRoot m)) :: acts, ?_⟩
        simp only [copy_to_rootfs_loop, hty, hacts]
    | other =>
      refine ⟨[CopyAction.mkdirs (dirname (joinPath rootfs (relpathFromRoot m)))], ?_⟩
      simp only [copy_to_rootfs_loop, hty]

/-- In an error-free run of the copy loop, every match receives a mkdirs of
its destination parent and a copy operation onto its destination, which is
the staging root joined with the match taken relative to the root. -/
lemma loop_mkdirs_dest (typeOf : String → SrcType) (rootfs path : String)
    (globs : List String) (host_path : String)
    (hmem : host_path ∈ globs)
    (hok : (copy_to_rootfs_loop typeOf rootfs path globs).2 = none) :
    CopyAction.mkdirs (dirname (joinPath rootfs (relpathFromRoot host_path))) ∈
      (copy_to_rootfs_loop typeOf rootfs path globs).1 ∧
    ∃ a ∈ (copy_to_rootfs_loop typeOf rootfs path globs).1,
      destOf a = some (joinPath rootfs (relpathFromRoot host_path)) := by
  induction globs with
  | nil => cases hmem
  | cons m rest ih =>
    cases hty : typeOf m with
    | link t =>
      simp only [copy_to_rootfs_loop, hty] at hok ⊢
      rcases List.mem_cons.mp hmem with heq | hmem'
      · subst heq
        exact ⟨List.mem_cons_self _ _,
          ⟨_, List.mem_cons_of_mem _ (List.mem_cons_self _ _), rfl⟩⟩
      · obtain ⟨h1, a, ha, hd⟩ := ih hmem' hok
        exact ⟨List.mem_cons_of_mem _ (List.mem_cons_of_mem _ h1),
          ⟨a, List.mem_cons_of_mem _ (List.mem_cons_of_mem _ ha), hd⟩⟩
    | dir =>
      simp only [copy_to_rootfs_loop, hty] at hok ⊢
      rcases List.mem_cons.mp hmem with heq | hmem'
      · subst heq
        exact ⟨List.mem_cons_self _ _,
          ⟨_, List.mem_cons_of_mem _ (List.mem_cons_self _ _), rfl⟩⟩
      · obtain ⟨h1, a, ha, hd⟩ := ih hmem' hok
        exact ⟨List.mem_cons_of_mem _ (List.mem_cons_of_mem _ h1),
          ⟨a, List.mem_cons_of_mem _ (List.mem_cons_of_mem _ ha), hd⟩⟩
    | file =>
      simp only [copy_to_rootfs_loop, hty] at hok ⊢
      rcases List.mem_cons.mp hmem with heq | hmem'
      · subst heq
        exact ⟨List.mem_cons_self _ _,
          ⟨_, List.mem_cons_of_mem _ (List.mem_cons_self _ _), rfl⟩⟩
      · obtain ⟨h1, a, ha, hd⟩ := ih hmem' hok
        exact ⟨List.mem_cons_of_mem _ (List.mem_cons_of_mem _ h1),
          ⟨a, List.mem_cons_of_mem _ (List.mem_cons_of_mem _ ha), hd⟩⟩
    | other =>
      simp only [copy_to_rootfs_loop, hty] at hok
      exact Option.noConfusion hok

/-- For a staging root that is non-empty and has no trailing separator, and a
host path with exactly one leading separator, joining the staging root with
the host path taken relative to the root is plain string concatenation. -/
lemma joinPath_relpath_abs (rootfs p : String) (h1 : rootfs.data ≠ [])
    (h2 : rootfs.data.getLast? ≠ some '/') (h3 : p.data.head? = some '/')
    (h4 : p.data.tail.head? ≠ some '/') :
    joinPath rootfs (relpathFromRoot p) = rootfs ++ p := by
  obtain ⟨rest, hrest⟩ : ∃ rest, p.data = '/' :: rest := by
    cases hd : p.data with
    | nil => rw [hd] at h3; cases h3
    | cons c cs =>
      rw [hd] at h3
      simp only [List.head?_cons, Option.some.injEq] at h3
      exact ⟨cs, by rw [h3]⟩
  have h4' : rest.head? ≠ some '/' := by
    rw [hrest] at h4
    exact h4
  have hrel : relpathFromRoot p = String.mk rest := by
    unfold relpathFromRoot
    rw [hrest]
    cases hr : rest with
    | nil => rfl
    | cons c cs =>
      have hc : ¬c = '/' := by
        rw [hr] at h4'
        simp only [List.head?_cons, ne_eq, Option.some.injEq] at h4'
        exact h4'
      simp [List.dropWhile_cons, hc]
  rw [hrel]
  unfold joinPath
  rw [if_neg (by simpa using h4')]
  rw [if_neg (not_or.mpr ⟨h1, h2⟩)]
  apply String.ext
  rw [String.data_append, String.data_append, String.data_append, hrest, List.append_assoc]
  rfl

/-- Claim C4: for every symbolic link matched and copied without error, the
target string of the destination symlink equals that of the source link
byte for byte (the classification function is arbitrary, so nothing about
the target resolving is assumed). -/
theorem claim_C4_symlink_target_preserved (typeOf : String → SrcType)
    (rootfs path : String) (globs : List String) (host_path target : String)
    (hmem : host_path ∈ globs) (htype : typeOf host_path = SrcType.link target)
    (hok : (copy_to_rootfs typeOf rootfs path globs).2 = none) :
    CopyAction.symlink target (joinPath rootfs (relpathFromRoot host_path)) ∈
      (copy_to_rootfs typeOf rootfs path globs).1 :=
  loop_symlink_mem typeOf rootfs path globs host_path target hmem htype hok

/-- Concrete instance of claim C4: a link whose target string `dangling`
resolves to nothing is recreated with exactly that target string. -/
theorem claim_C4_symlink_target_preserved_witness :
    "/x" ∈ ["/x"] ∧
    (copy_to_rootfs (fun _ => SrcType.link "dangling") "/tmp/rootfs" "/x" ["/x"]).2 = none ∧
    CopyAction.symlink "dangling" (joinPath "/tmp/rootfs" (relpathFromRoot "/x")) ∈
      (copy_to_rootfs (fun _ => SrcType.link "dangling") "/tmp/rootfs" "/x" ["/x"]).1 :=
  ⟨by decide, by decide,
   claim_C4_symlink_target_preserved (fun _ => SrcType.link "dangling") "/tmp/rootfs" "/x"
     ["/x"] "/x" "dangling" (by decide) rfl (by decide)⟩

/-- Counterexample to claim C6 as stated: for the glob pattern `/dev/*`
matching the device file `/dev/null`, the message of the raised error does not
contain the matched path `/dev/null` anywhere (the message names the glob
pattern instead). -/
theorem claim_C6_counterexample :
    (copy_to_rootfs (fun p => if p = "/dev/null" then SrcType.other else SrcType.file)
        "/tmp/rootfs" "/dev/*" ["/dev/null"]).2 =
      some (StavesError.mk "Copying /dev/* to rootfs is not supported.") ∧
    ¬ ("/dev/null".data <:+: "Copying /dev/* to rootfs is not supported.".data) :=
  ⟨by decide, by decide⟩

/-- Claim C6 (amended): for every glob pattern one of whose matches is
neither a symbolic link, a directory, nor a regular file, the filesystem
copier fails with an unsupported-copy error whose message names the glob
pattern (the `path` argument), not necessarily the matched path. -/
theorem claim_C6_unsupported_raises_pattern_error (typeOf : String → SrcType)
    (rootfs path : String) (globs : List String) (host_path : String)
    (hmem : host_path ∈ globs) (htype : typeOf host_path = SrcType.other) :
    ∃ acts, copy_to_rootfs typeOf rootfs path globs =
      (acts, some (StavesError.mk ("Copying " ++ path ++ " to rootfs is not supported."))) :=
  loop_unsupported_pattern_error typeOf rootfs path globs host_path hmem htype

/-- Concrete instance of the amended claim C6: a socket among the matches of
`/run/*` aborts the copy with the error naming the pattern. -/
theorem claim_C6_unsupported_raises_pattern_error_witness :
    "/run/sock" ∈ ["/run/conf", "/run/sock"] ∧
    ∃ acts, copy_to_rootfs
        (fun p => if p = "/run/sock" then SrcType.other else SrcType.file)
        "/tmp/rootfs" "/run/*" ["/run/conf", "/run/sock"] =
      (acts, some (StavesError.mk ("Copying " ++ "/run/*" ++ " to rootfs is not supported."))) :=
  ⟨by decide,
   claim_C6_unsupported_raises_pattern_error
     (fun p => if p = "/run/sock" then SrcType.other else SrcType.file)
     "/tmp/rootfs" "/run/*" ["/run/conf", "/run/sock"] "/run/sock"
     (by decide) (by decide)⟩

/-- Claim C10: in an error-free run, every match gets its destination parent
directories created and is copied to the staging root joined with the match
taken relative to the filesystem root; for a staging root without trailing
separator and a match with a single leading separator, that destination is
literally the staging root concatenated with the host path, mirroring the
host position. -/
theorem claim_C10_destination_mirrors_host (typeOf : String → SrcType)
    (rootfs path : String) (globs : List String) (host_path : String)
    (hmem : host_path ∈ globs)
    (hok : (copy_to_rootfs typeOf rootfs path globs).2 = none) :
    CopyAction.mkdirs (dirname (joinPath rootfs (relpathFromRoot host_path))) ∈
      (copy_to_rootfs typeOf rootfs path globs).1 ∧
    (∃ a ∈ (copy_to_rootfs typeOf rootfs path globs).1,
      destOf a = some (joinPath rootfs (relpathFromRoot host_path))) ∧
    (rootfs.data ≠ [] → rootfs.data.getLast? ≠ some '/' →
      host_path.data.head? = some '/' → host_path.data.tail.head? ≠ some '/' →
      joinPath rootfs (relpathFromRoot host_path) = rootfs ++ host_path) :=
  ⟨(loop_mkdirs_dest typeOf rootfs path globs host_path hmem hok).1,
   (loop_mkdirs_dest typeOf rootfs path globs host_path hmem hok).2,
   fun h1 h2 h3 h4 => joinPath_relpath_abs rootfs host_path h1 h2 h3 h4⟩

/-- Concrete instance of claim C10: `/etc/hosts` copied into `/tmp/rootfs`
lands at `/tmp/rootfs/etc/hosts` with its parent directory created. -/
theorem claim_C10_destination_mirrors_host_witness :
    "/etc/hosts" ∈ ["/etc/hosts"] ∧
    (copy_to_rootfs (fun _ => SrcType.file) "/tmp/rootfs" "/etc/hosts" ["/etc/hosts"]).2 =
      none ∧
    (∃ a ∈ (copy_to_rootfs (fun _ => SrcType.file) "/tmp/rootfs" "/etc/hosts"
        ["/etc/hosts"]).1,
      destOf a = some (joinPath "/tmp/rootfs" (relpathFromRoot "/etc/hosts"))) ∧
    joinPath "/tmp/rootfs" (relpathFromRoot "/etc/hosts") = "/tmp/rootfs" ++ "/etc/hosts" :=
  ⟨by decide, by decide,
   (claim_C10_destination_mirrors_host (fun _ => SrcType.file) "/tmp/rootfs" "/etc/hosts"
     ["/etc/hosts"] "/etc/hosts" (by decide) (by decide)).2.1,
   (claim_C10_destination_mirrors_host (fun _ => SrcType.file) "/tmp/rootfs" "/etc/hosts"
     ["/etc/hosts"] "/etc/hosts" (by decide) (by decide)).2.2
     (by decide) (by decide) (by decide) (by decide)⟩

end Staves
